import Mathlib

/-!
Verification of the parallel TP/SL grid backtester (source file 7.2.py).

The core of the program is the function simulate_system_for_metrics: for a
fixed parameter combination (tp_frac, sl_frac, horizon_days) it walks a daily
OHLC bar series, opens one position per bar sized 1/horizon, resolves each
open position by take-profit, stop-loss or flat time expiry, and accumulates
linear and compounded equity together with Welford streaming statistics of
the realized trade returns.  The grid driver run_grid_search enumerates a
cartesian grid of parameter combinations and collects one result row per
combination whose simulation succeeds.

We embed the program shallowly over exact rationals (the real-arithmetic
idealization of the Python floats).  Field names follow the source where Lean
allows it; the bar field "Open" is rendered as `op` because `open` is a Lean
keyword.
-/

namespace Convolve

attribute [local semireducible] Rat.add Rat.mul Rat.sub Rat.inv Rat.ofScientific

/-- FEE_RATE from the source configuration block: 0.1% per side. -/
def FEE_RATE : ℚ := 0.001

/-- SPREAD_RATE from the source configuration block: 0.01% spread. -/
def SPREAD_RATE : ℚ := 0.0001

/-- TOTAL_COST_FRAC = 2 * FEE_RATE + SPREAD_RATE, the fixed per-resolution
round-trip cost. -/
def TOTAL_COST_FRAC : ℚ := 2 * FEE_RATE + SPREAD_RATE

/-- START_CAPITAL from the source configuration block. -/
def START_CAPITAL : ℚ := 100000

/-- AMBIGUOUS_FILL from the source configuration block: the default
ambiguous-fill policy ("SL_FIRST" is pessimistic, "TP_FIRST" optimistic). -/
def AMBIGUOUS_FILL : String := "SL_FIRST"

/-- One daily OHLC bar.  `date` is the calendar day number (the source holds a
pandas datetime index; only day differences are used, for the year count). -/
structure Bar where
  date : ℤ
  op : ℚ
  hi : ℚ
  lo : ℚ
  close : ℚ
deriving Repr, DecidableEq

/-- The parameters of one simulation call: tp_frac, sl_frac, horizon_days,
start_equity, and the ambiguous-fill policy (a module constant in the source,
threaded explicitly here). -/
structure SimConfig where
  tp_frac : ℚ
  sl_frac : ℚ
  horizon_days : ℤ
  start_equity : ℚ
  ambiguous_fill : String
deriving Repr, DecidableEq

/-- An open position: [tp_level, sl_level, expiry_index] in the source. -/
structure Pos where
  tpL : ℚ
  slL : ℚ
  expiry : ℕ
deriving Repr, DecidableEq

/-- h = max(int(horizon_days), 1): the clamped horizon. -/
def hClamp (horizon_days : ℤ) : ℕ := (max horizon_days 1).toNat

/-- w = 1.0 / h: capital per position. -/
def weight (horizon_days : ℤ) : ℚ := 1 / (hClamp horizon_days : ℚ)

/-- The accumulator state mutated inside the bar loop of
simulate_system_for_metrics (the open-position list is threaded separately). -/
structure SimState where
  trades : ℕ
  label1_count : ℕ
  pnl_linear_sum : ℚ
  equity_lin : ℚ
  max_equity_lin : ℚ
  dd_min : ℚ
  mean_r : ℚ
  M2 : ℚ
  equity_comp : ℚ
deriving Repr, DecidableEq

/-- The accumulator state before the bar loop starts. -/
def initState (start_equity : ℚ) : SimState :=
  { trades := 0
    label1_count := 0
    pnl_linear_sum := 0
    equity_lin := 1
    max_equity_lin := 1
    dd_min := 0
    mean_r := 0
    M2 := 0
    equity_comp := start_equity }

/-- The resolution outcome of one open position against the current bar:
+1 TP, -1 SL, 0 otherwise (0 covers both "still open" and "flat expiry";
the two are told apart by comparing the bar index with the expiry index,
exactly as in the source). -/
def resolveOut (policy : String) (hi lo : ℚ) (p : Pos) : Int :=
  let hit_tp := p.tpL ≤ hi
  let hit_sl := lo ≤ p.slL
  if hit_tp ∧ hit_sl then (if policy = "TP_FIRST" then 1 else -1)
  else if hit_sl then -1
  else if hit_tp then 1
  else 0

/-- Raw return of a closed position: tp_frac on TP, -sl_frac on SL, 0 flat. -/
def rawReturn (cfg : SimConfig) (out : Int) : ℚ :=
  if out = 1 then cfg.tp_frac else if out = -1 then -cfg.sl_frac else 0

/-- eff_r = w * r - w * TOTAL_COST_FRAC: position sizing and costs. -/
def effReturn (cfg : SimConfig) (out : Int) : ℚ :=
  weight cfg.horizon_days * rawReturn cfg out
    - weight cfg.horizon_days * TOTAL_COST_FRAC

/-- The accumulator update performed when a position closes with outcome
`out`, following the source line by line: trade tally and label tally (TP/SL
only), linear equity with floor at 0, running peak and drawdown, the Welford
mean/variance update (TP/SL only, dividing by the already incremented trade
count), and compounded equity with floor at 0. -/
def applyClose (cfg : SimConfig) (s : SimState) (out : Int) : SimState :=
  let trades := if out = 0 then s.trades else s.trades + 1
  let label1_count := if out = 1 then s.label1_count + 1 else s.label1_count
  let e := effReturn cfg out
  let pnl_linear_sum := s.pnl_linear_sum + e
  let equity_lin := max (s.equity_lin + e) 0
  let max_equity_lin := max s.max_equity_lin equity_lin
  let dd_min := min s.dd_min (equity_lin - max_equity_lin)
  let mean_r := if out = 0 then s.mean_r
    else s.mean_r + (e - s.mean_r) / (trades : ℚ)
  let M2 := if out = 0 then s.M2 else s.M2 + (e - mean_r) * (e - mean_r)
  let equity_comp := max (s.equity_comp * (1 + e)) 0
  { trades := trades
    label1_count := label1_count
    pnl_linear_sum := pnl_linear_sum
    equity_lin := equity_lin
    max_equity_lin := max_equity_lin
    dd_min := dd_min
    mean_r := mean_r
    M2 := M2
    equity_comp := equity_comp }

/-- The inner per-bar loop over the open-position list: each position either
stays open (out = 0 and the bar index is before its expiry) or closes and
feeds `applyClose`.  Returns the updated accumulators and the surviving
positions in their original order. -/
def processPositions (cfg : SimConfig) (hi lo : ℚ) (i : ℕ) :
    SimState → List Pos → SimState × List Pos
  | s, [] => (s, [])
  | s, p :: rest =>
    let out := resolveOut cfg.ambiguous_fill hi lo p
    if out = 0 ∧ i < p.expiry then
      let res := processPositions cfg hi lo i s rest
      (res.1, p :: res.2)
    else
      processPositions cfg hi lo i (applyClose cfg s out) rest

/-- The position opened at bar i: tp_level = open*(1+tp_frac),
sl_level = open*(1-sl_frac), expiry = min(i + h - 1, n - 1). -/
def mkPosition (cfg : SimConfig) (n i : ℕ) (entry : ℚ) : Pos :=
  { tpL := entry * (1 + cfg.tp_frac)
    slL := entry * (1 - cfg.sl_frac)
    expiry := min (i + hClamp cfg.horizon_days - 1) (n - 1) }

/-- One iteration of the bar loop: open the new position for bar i, then run
every open position (including the new one, appended last) against the bar's
high/low. -/
def simBar (cfg : SimConfig) (n : ℕ) (sp : SimState × List Pos)
    (ib : ℕ × Bar) : SimState × List Pos :=
  let i := ib.1
  let bar := ib.2
  let p := mkPosition cfg n i bar.op
  processPositions cfg bar.hi bar.lo i sp.1 (sp.2 ++ [p])

/-- The full bar loop: i runs from 1 to n-1 (entries price at bar i's Open),
starting from the initial accumulators and no open positions. -/
def simLoop (cfg : SimConfig) (bars : List Bar) : SimState × List Pos :=
  (bars.enum.drop 1).foldl (simBar cfg bars.length)
    (initState cfg.start_equity, [])

/-- years = max((last date - first date) / 365.25, 1e-9). -/
def yearsOf (bars : List Bar) : ℚ :=
  match bars.head?, bars.getLast? with
  | some b0, some b1 =>
      max (((b1.date - b0.date : ℤ) : ℚ) / 365.25) 0.000000001
  | _, _ => 0.000000001

/-- The per-combination result row (the fields of the returned dict that the
claims refer to; the percent variants are fixed multiples and the Sharpe and
Calmar fields involve square roots, outside the rational fragment). -/
structure SimResult where
  tp_frac : ℚ
  sl_frac : ℚ
  horizon_days : ℕ
  trades : ℕ
  years : ℚ
  pnl_linear : ℚ
  pnl_per_trade : ℚ
  label1_ratio : ℚ
  max_drawdown : ℚ
  trades_per_year : ℚ
  equity_final : ℚ
  compounded_return : ℚ
deriving Repr, DecidableEq

/-- simulate_system_for_metrics: returns none ("InsufficientData") when the
series has fewer than 3 bars, otherwise runs the bar loop and derives the
result row.  (The `trades_per_year` guard's else-branch is unreachable since
years is floored at 1e-9 > 0; it is rendered as 0 in place of NaN.) -/
def simulate_system_for_metrics (cfg : SimConfig) (bars : List Bar) :
    Option SimResult :=
  let n := bars.length
  if n < 3 then none
  else
    let h := hClamp cfg.horizon_days
    let years := yearsOf bars
    let s := (simLoop cfg bars).1
    some {
      tp_frac := cfg.tp_frac
      sl_frac := cfg.sl_frac
      horizon_days := h
      trades := s.trades
      years := years
      pnl_linear := s.pnl_linear_sum
      pnl_per_trade := s.mean_r
      label1_ratio :=
        if 0 < s.trades then (s.label1_count : ℚ) / (s.trades : ℚ) else 0
      max_drawdown := min (-s.dd_min) 1
      trades_per_year := if 0 < years then (s.trades : ℚ) / years else 0
      equity_final := s.equity_comp
      compounded_return := s.equity_comp / cfg.start_equity - 1 }

/-- The post-pass CAGR derivation (source lines 345-349): compounded_return
is equity_comp / start_equity - 1, and compounded_cagr is
(1 + compounded_return) ^ (1 / years) - 1 when years > 0 and
compounded_return > -0.999999, and the NaN sentinel (here: none) otherwise. -/
noncomputable def compounded_cagr_calc (equity_comp start_equity years : ℚ) :
    Option ℝ :=
  let compounded_return : ℚ := equity_comp / start_equity - 1
  if 0 < years ∧ (-0.999999 : ℚ) < compounded_return then
    some ((1 + (compounded_return : ℝ)) ^ ((1 : ℝ) / (years : ℝ)) - 1)
  else none

/-- One step of the innermost grid loop: run the simulator for one
combination; append a row when it produced one, keep the accumulator
unchanged ("continue") when it signalled InsufficientData. -/
def gridStep (bars : List Bar) (se tp sl : ℚ) (acc : List SimResult)
    (hv : ℤ) : List SimResult :=
  match simulate_system_for_metrics ⟨tp, sl, hv, se, AMBIGUOUS_FILL⟩ bars with
  | none => acc
  | some r => acc ++ [r]

/-- The innermost grid loop over the horizon values. -/
def gridH (bars : List Bar) (se tp sl : ℚ) (acc : List SimResult)
    (hsv : List ℤ) : List SimResult :=
  hsv.foldl (gridStep bars se tp sl) acc

/-- The middle grid loop over the stop-loss values. -/
def gridSL (bars : List Bar) (se tp : ℚ) (hsv : List ℤ)
    (acc : List SimResult) (sls : List ℚ) : List SimResult :=
  sls.foldl (fun a sl => gridH bars se tp sl a hsv) acc

/-- run_grid_search: the triple nested loop over tp values, sl values and
horizon values, collecting one result row per combination that simulated. -/
def run_grid_search (bars : List Bar) (tps sls : List ℚ) (hsv : List ℤ)
    (se : ℚ) : List SimResult :=
  tps.foldl (fun a tp => gridSL bars se tp hsv a sls) []

/-- np.linspace(lo, hi, steps): `steps` evenly spaced values from lo to hi
inclusive (for steps = 1 the single value lo; the source never passes 0). -/
def linspace (lo hi : ℚ) (steps : ℕ) : List ℚ :=
  if steps ≤ 1 then (List.range steps).map (fun _ => lo)
  else (List.range steps).map
    (fun k : ℕ => lo + (hi - lo) * (k : ℚ) / ((steps : ℚ) - 1))

/-- np.arange(lo, hi) with integer step 1: lo, lo+1, ..., hi-1 (empty when
hi ≤ lo). -/
def arange (lo hi : ℤ) : List ℤ :=
  (List.range (hi - lo).toNat).map (fun k : ℕ => lo + (k : ℤ))

/-- run_grid_search as invoked, with the value grids built from the
configured bounds: linspace for tp and sl, arange(hmin, hmax + 1) for the
horizon range.  No validation of the bounds is performed anywhere. -/
def run_grid_search_cfg (bars : List Bar) (tpmin tpmax : ℚ) (tpsteps : ℕ)
    (slmin slmax : ℚ) (slsteps : ℕ) (hmin hmax : ℤ) (se : ℚ) :
    List SimResult :=
  run_grid_search bars (linspace tpmin tpmax tpsteps)
    (linspace slmin slmax slsteps) (arange hmin (hmax + 1)) se

/-! ### Unfolding lemmas for the inner position loop -/

lemma processPositions_nil (cfg : SimConfig) (hi lo : ℚ) (i : ℕ)
    (s : SimState) : processPositions cfg hi lo i s [] = (s, []) := rfl

lemma processPositions_cons_keep (cfg : SimConfig) (hi lo : ℚ) (i : ℕ)
    (s : SimState) (p : Pos) (rest : List Pos)
    (h : resolveOut cfg.ambiguous_fill hi lo p = 0 ∧ i < p.expiry) :
    processPositions cfg hi lo i s (p :: rest)
      = ((processPositions cfg hi lo i s rest).1,
          p :: (processPositions cfg hi lo i s rest).2) := by
  simp only [processPositions]
  rw [if_pos h]

lemma processPositions_cons_close (cfg : SimConfig) (hi lo : ℚ) (i : ℕ)
    (s : SimState) (p : Pos) (rest : List Pos)
    (h : ¬(resolveOut cfg.ambiguous_fill hi lo p = 0 ∧ i < p.expiry)) :
    processPositions cfg hi lo i s (p :: rest)
      = processPositions cfg hi lo i
          (applyClose cfg s (resolveOut cfg.ambiguous_fill hi lo p)) rest := by
  simp only [processPositions]
  rw [if_neg h]

lemma simBar_eq (cfg : SimConfig) (n : ℕ) (sp : SimState × List Pos)
    (ib : ℕ × Bar) :
    simBar cfg n sp ib
      = processPositions cfg ib.2.hi ib.2.lo ib.1 sp.1
          (sp.2 ++ [mkPosition cfg n ib.1 ib.2.op]) := rfl

/-! ### Equity floor invariant -/

lemma equity_nonneg_applyClose (cfg : SimConfig) (s : SimState) (out : Int) :
    0 ≤ (applyClose cfg s out).equity_lin
      ∧ 0 ≤ (applyClose cfg s out).equity_comp :=
  ⟨le_max_right _ _, le_max_right _ _⟩

lemma equity_nonneg_processPositions (cfg : SimConfig) (hi lo : ℚ) (i : ℕ) :
    ∀ (ps : List Pos) (s : SimState),
      0 ≤ s.equity_lin → 0 ≤ s.equity_comp →
      0 ≤ (processPositions cfg hi lo i s ps).1.equity_lin ∧
        0 ≤ (processPositions cfg hi lo i s ps).1.equity_comp := by
  intro ps
  induction ps with
  | nil =>
    intro s h1 h2
    rw [processPositions_nil]
    exact ⟨h1, h2⟩
  | cons p rest ih =>
    intro s h1 h2
    by_cases hc : resolveOut cfg.ambiguous_fill hi lo p = 0 ∧ i < p.expiry
    · rw [processPositions_cons_keep cfg hi lo i s p rest hc]
      exact ih s h1 h2
    · rw [processPositions_cons_close cfg hi lo i s p rest hc]
      exact ih _ (equity_nonneg_applyClose cfg s _).1
        (equity_nonneg_applyClose cfg s _).2

lemma equity_nonneg_foldl (cfg : SimConfig) (n : ℕ) :
    ∀ (l : List (ℕ × Bar)) (sp : SimState × List Pos),
      0 ≤ sp.1.equity_lin → 0 ≤ sp.1.equity_comp →
      0 ≤ (l.foldl (simBar cfg n) sp).1.equity_lin ∧
        0 ≤ (l.foldl (simBar cfg n) sp).1.equity_comp := by
  intro l
  induction l with
  | nil =>
    intro sp h1 h2
    exact ⟨h1, h2⟩
  | cons ib t ih =>
    intro sp h1 h2
    rw [List.foldl_cons]
    have h := equity_nonneg_processPositions cfg ib.2.hi ib.2.lo ib.1
      (sp.2 ++ [mkPosition cfg n ib.1 ib.2.op]) sp.1 h1 h2
    rw [← simBar_eq cfg n sp ib] at h
    exact ih _ h.1 h.2

lemma equity_nonneg_simLoop (cfg : SimConfig) (bars : List Bar)
    (hse : 0 ≤ cfg.start_equity) :
    0 ≤ (simLoop cfg bars).1.equity_lin
      ∧ 0 ≤ (simLoop cfg bars).1.equity_comp := by
  unfold simLoop
  exact equity_nonneg_foldl cfg bars.length _ _ zero_le_one hse

/-! ### Still-open positions have unreached expiry -/

lemma processPositions_mem_expiry (cfg : SimConfig) (hi lo : ℚ) (i : ℕ) :
    ∀ (ps : List Pos) (s : SimState) (p : Pos),
      p ∈ (processPositions cfg hi lo i s ps).2 → i < p.expiry := by
  intro ps
  induction ps with
  | nil =>
    intro s p hp
    rw [processPositions_nil] at hp
    exact absurd hp (List.not_mem_nil p)
  | cons q rest ih =>
    intro s p hp
    by_cases hc : resolveOut cfg.ambiguous_fill hi lo q = 0 ∧ i < q.expiry
    · rw [processPositions_cons_keep cfg hi lo i s q rest hc] at hp
      rcases List.mem_cons.mp hp with h | h
      · exact h ▸ hc.2
      · exact ih s p h
    · rw [processPositions_cons_close cfg hi lo i s q rest hc] at hp
      exact ih _ p hp

/-! ### Claim theorems -/

/-- C1: for every bar and open position, when both exit levels trigger within
the bar (high ≥ tp_level and low ≤ sl_level) the configured ambiguous-fill
policy decides the outcome — under the default "SL_FIRST" policy the position
resolves as SL with raw return -sl_frac, and under "TP_FIRST" it resolves as
TP with raw return tp_frac — and when only one of the two conditions holds,
that exit resolves the position; a nonzero outcome always closes the
position. -/
theorem C1_ambiguous_fill (cfg : SimConfig) (hi lo : ℚ) (i : ℕ)
    (s : SimState) (p : Pos) (rest : List Pos) :
    (p.tpL ≤ hi → lo ≤ p.slL →
      resolveOut cfg.ambiguous_fill hi lo p
        = (if cfg.ambiguous_fill = "TP_FIRST" then 1 else -1))
    ∧ (cfg.ambiguous_fill = "SL_FIRST" → p.tpL ≤ hi → lo ≤ p.slL →
        rawReturn cfg (resolveOut cfg.ambiguous_fill hi lo p) = -cfg.sl_frac)
    ∧ (cfg.ambiguous_fill = "TP_FIRST" → p.tpL ≤ hi → lo ≤ p.slL →
        rawReturn cfg (resolveOut cfg.ambiguous_fill hi lo p) = cfg.tp_frac)
    ∧ (lo ≤ p.slL → ¬p.tpL ≤ hi →
        resolveOut cfg.ambiguous_fill hi lo p = -1
          ∧ rawReturn cfg (-1) = -cfg.sl_frac)
    ∧ (p.tpL ≤ hi → ¬lo ≤ p.slL →
        resolveOut cfg.ambiguous_fill hi lo p = 1
          ∧ rawReturn cfg 1 = cfg.tp_frac)
    ∧ (resolveOut cfg.ambiguous_fill hi lo p ≠ 0 →
        processPositions cfg hi lo i s (p :: rest)
          = processPositions cfg hi lo i
              (applyClose cfg s (resolveOut cfg.ambiguous_fill hi lo p))
              rest) := by
  refine ⟨?_, ?_, ?_, ?_, ?_, ?_⟩
  · intro htp hsl
    simp [resolveOut, htp, hsl]
  · intro hpol htp hsl
    simp [resolveOut, rawReturn, htp, hsl, hpol]
  · intro hpol htp hsl
    simp [resolveOut, rawReturn, htp, hsl, hpol]
  · intro hsl htp
    exact ⟨by simp [resolveOut, htp, hsl], by simp [rawReturn]⟩
  · intro htp hsl
    exact ⟨by simp [resolveOut, htp, hsl], by simp [rawReturn]⟩
  · intro h0
    exact processPositions_cons_close cfg hi lo i s p rest
      (fun hc => h0 hc.1)

/-- C1 witness: a concrete ambiguous bar (high 200 ≥ tp_level 110, low 0 ≤
sl_level 95) resolves as SL with raw return -sl_frac under the default
SL_FIRST policy. -/
theorem C1_ambiguous_fill_witness :
    ((110 : ℚ) ≤ 200) ∧ ((0 : ℚ) ≤ 95)
    ∧ resolveOut "SL_FIRST" 200 0 ⟨110, 95, 3⟩ = -1
    ∧ rawReturn ⟨1/10, 1/20, 1, 1000, "SL_FIRST"⟩
        (resolveOut "SL_FIRST" 200 0 ⟨110, 95, 3⟩) = -(1/20) := by
  have h := C1_ambiguous_fill ⟨1/10, 1/20, 1, 1000, "SL_FIRST"⟩ 200 0 0
    (initState 0) ⟨110, 95, 3⟩ []
  refine ⟨by norm_num, by norm_num, ?_, ?_⟩
  · have h1 := h.1 (by norm_num) (by norm_num)
    simpa using h1
  · have h2 := h.2.1 rfl (by norm_num) (by norm_num)
    simpa using h2

/-- C2: after every resolution update the linear equity and the compounded
equity are both ≥ 0 (each update takes a max with 0), and hence on every bar
sequence — adversarial all-SL paths included — the equities at the end of the
bar loop are ≥ 0 (given a nonnegative starting capital, which covers the
state before any resolution has occurred). -/
theorem C2_equity_floor (cfg : SimConfig) (s : SimState) (out : Int)
    (bars : List Bar) (hse : 0 ≤ cfg.start_equity) :
    (0 ≤ (applyClose cfg s out).equity_lin
      ∧ 0 ≤ (applyClose cfg s out).equity_comp)
    ∧ (0 ≤ (simLoop cfg bars).1.equity_lin
      ∧ 0 ≤ (simLoop cfg bars).1.equity_comp) :=
  ⟨equity_nonneg_applyClose cfg s out, equity_nonneg_simLoop cfg bars hse⟩

/-- C2 witness: the equity floor at a concrete adversarial state (an SL close
from an already wiped-out state) and a concrete all-SL bar series. -/
theorem C2_equity_floor_witness :
    (0 : ℚ) ≤ (100000 : ℚ)
    ∧ (0 ≤ (applyClose ⟨1/10, 1/10, 1, 100000, "SL_FIRST"⟩
          (initState 0) (-1)).equity_lin
      ∧ 0 ≤ (applyClose ⟨1/10, 1/10, 1, 100000, "SL_FIRST"⟩
          (initState 0) (-1)).equity_comp)
    ∧ (0 ≤ (simLoop ⟨1/10, 1/10, 1, 100000, "SL_FIRST"⟩
          [⟨0, 100, 100, 0, 100⟩, ⟨365, 100, 100, 0, 100⟩,
           ⟨730, 100, 100, 0, 100⟩]).1.equity_lin
      ∧ 0 ≤ (simLoop ⟨1/10, 1/10, 1, 100000, "SL_FIRST"⟩
          [⟨0, 100, 100, 0, 100⟩, ⟨365, 100, 100, 0, 100⟩,
           ⟨730, 100, 100, 0, 100⟩]).1.equity_comp) :=
  ⟨by norm_num,
    C2_equity_floor ⟨1/10, 1/10, 1, 100000, "SL_FIRST"⟩ (initState 0) (-1)
      [⟨0, 100, 100, 0, 100⟩, ⟨365, 100, 100, 0, 100⟩,
       ⟨730, 100, 100, 0, 100⟩] (by norm_num)⟩

/-- C3: a resolution increments the trade count and enters the Welford
mean/variance accumulator if and only if it is a TP or SL resolution (nonzero
outcome): a FLAT close leaves trades, mean_r and M2 unchanged and has raw
return 0, while a TP/SL close increments trades and performs the Welford
update; a FLAT time-based expiry (outcome 0 at a bar that reached the
position's expiry) still removes the position from the open-position set. -/
theorem C3_flat_vs_trade_stats (cfg : SimConfig) (s : SimState) (out : Int)
    (hi lo : ℚ) (i : ℕ) (p : Pos) (rest : List Pos) :
    ((applyClose cfg s 0).trades = s.trades
      ∧ (applyClose cfg s 0).mean_r = s.mean_r
      ∧ (applyClose cfg s 0).M2 = s.M2
      ∧ rawReturn cfg 0 = 0)
    ∧ (out ≠ 0 →
        (applyClose cfg s out).trades = s.trades + 1
        ∧ (applyClose cfg s out).mean_r
            = s.mean_r + (effReturn cfg out - s.mean_r) / ((s.trades : ℚ) + 1))
    ∧ (resolveOut cfg.ambiguous_fill hi lo p = 0 → p.expiry ≤ i →
        processPositions cfg hi lo i s (p :: rest)
          = processPositions cfg hi lo i (applyClose cfg s 0) rest) := by
  refine ⟨⟨rfl, rfl, rfl, rfl⟩, ?_, ?_⟩
  · intro h
    constructor
    · simp [applyClose, h]
    · simp only [applyClose, if_neg h]
      push_cast
      ring
  · intro hr hexp
    have h := processPositions_cons_close cfg hi lo i s p rest
      (by simp [hr]; omega)
    rw [hr] at h
    exact h

/-- C3 witness: a concrete FLAT close leaves the tally and the Welford
accumulator unchanged, a concrete SL close increments the tally, and a
concrete expired position is removed from the open set. -/
theorem C3_flat_vs_trade_stats_witness :
    ((-1 : Int) ≠ 0)
    ∧ resolveOut "SL_FIRST" 100 100 ⟨110, 90, 1⟩ = 0
    ∧ (1 : ℕ) ≤ 1
    ∧ (applyClose ⟨1/10, 1/10, 1, 100000, "SL_FIRST"⟩ (initState 100000)
        0).trades = (initState 100000).trades
    ∧ (applyClose ⟨1/10, 1/10, 1, 100000, "SL_FIRST"⟩ (initState 100000)
        (-1)).trades = (initState 100000).trades + 1
    ∧ processPositions ⟨1/10, 1/10, 1, 100000, "SL_FIRST"⟩ 100 100 1
        (initState 100000) [⟨110, 90, 1⟩]
      = processPositions ⟨1/10, 1/10, 1, 100000, "SL_FIRST"⟩ 100 100 1
          (applyClose ⟨1/10, 1/10, 1, 100000, "SL_FIRST"⟩
            (initState 100000) 0) [] := by
  have h := C3_flat_vs_trade_stats ⟨1/10, 1/10, 1, 100000, "SL_FIRST"⟩
    (initState 100000) (-1) 100 100 1 ⟨110, 90, 1⟩ []
  exact ⟨by decide, by decide, le_refl 1, h.1.1,
    (h.2.1 (by decide)).1, h.2.2 (by decide) (le_refl 1)⟩

/-- C4 counterexample: on a concrete 3-bar flat series with horizon 1 every
opened position resolves by FLAT time expiry (two resolutions, each debited
the per-resolution cost, as the linear P&L sum of -0.0042 shows), yet the
reported trades total is 0 — it does not exceed the number of TP/SL
resolutions (also 0), so FLAT expiries are not counted in the trades tally
used for trades_per_year. -/
theorem C4_counterexample_flat_not_counted :
    (simulate_system_for_metrics ⟨1/10, 1/10, 1, 100000, "SL_FIRST"⟩
        [⟨0, 100, 100, 100, 100⟩, ⟨365, 100, 100, 100, 100⟩,
         ⟨730, 100, 100, 100, 100⟩]).map SimResult.trades = some 0
    ∧ (simulate_system_for_metrics ⟨1/10, 1/10, 1, 100000, "SL_FIRST"⟩
        [⟨0, 100, 100, 100, 100⟩, ⟨365, 100, 100, 100, 100⟩,
         ⟨730, 100, 100, 100, 100⟩]).map SimResult.pnl_linear
      = some (-(21/5000)) := by
  constructor <;> decide

/-- C4 (amended): FLAT-expiry resolutions are excluded from the trades tally
used for trades_per_year, exactly as they are excluded from the mean/variance
accumulator: a close increments the tally by one precisely when its outcome
is TP or SL, and a FLAT close leaves the Welford state unchanged. -/
theorem C4_amended_flat_not_in_tally (cfg : SimConfig) (s : SimState)
    (out : Int) :
    (applyClose cfg s out).trades = s.trades + (if out = 0 then 0 else 1)
    ∧ (applyClose cfg s 0).mean_r = s.mean_r
    ∧ (applyClose cfg s 0).M2 = s.M2 := by
  refine ⟨?_, rfl, rfl⟩
  by_cases h : out = 0 <;> simp [applyClose, h]

/-! ### Horizon and weight facts -/

lemma hClamp_of_pos (H : ℤ) (h : 1 ≤ H) : hClamp H = H.toNat := by
  unfold hClamp
  rw [max_eq_left h]

lemma cast_toNat_eq (H : ℤ) (h : 0 ≤ H) : ((H.toNat : ℚ)) = (H : ℚ) := by
  rw [← Int.cast_natCast, Int.toNat_of_nonneg h]

/-- C5: for every horizon H ≥ 1 the per-position weight is w = 1/H, the
position opened at bar i is assigned the expiry index min(i+H-1, n-1), and
every position still in the open set after bar i has an expiry index
strictly greater than i — so a position resolves (TP, SL or FLAT) no later
than its expiry bar, i.e. no later than bar i+H-1, or the final bar n-1 when
the series ends sooner. -/
theorem C5_horizon_weight_expiry (H : ℤ) (hH : 1 ≤ H) (cfg : SimConfig)
    (hcfg : cfg.horizon_days = H) (n i : ℕ) (hn : 1 ≤ n) (entry hi lo : ℚ)
    (s : SimState) (ps : List Pos) :
    weight H = 1 / (H : ℚ)
    ∧ ((mkPosition cfg n i entry).expiry : ℤ)
        = min ((i : ℤ) + H - 1) ((n : ℤ) - 1)
    ∧ (∀ p ∈ (processPositions cfg hi lo i s ps).2, i < p.expiry) := by
  refine ⟨?_, ?_, ?_⟩
  · unfold weight
    rw [hClamp_of_pos H hH, cast_toNat_eq H (by omega)]
  · have hc : hClamp cfg.horizon_days = H.toNat := by
      rw [hcfg]
      exact hClamp_of_pos H hH
    simp only [mkPosition, hc]
    omega
  · exact fun p hp => processPositions_mem_expiry cfg hi lo i ps s p hp

/-- C5 witness: horizon 3 gives weight 1/3, the position opened at bar 2 of
a 10-bar series has expiry index min(2+3-1, 9) = 4, and a concrete surviving
position has expiry past the current bar. -/
theorem C5_horizon_weight_expiry_witness :
    ((1 : ℤ) ≤ 3)
    ∧ weight 3 = 1 / ((3 : ℤ) : ℚ)
    ∧ ((mkPosition ⟨1/10, 1/20, 3, 1000, "SL_FIRST"⟩ 10 2 100).expiry : ℤ)
        = min (((2 : ℕ) : ℤ) + 3 - 1) (((10 : ℕ) : ℤ) - 1)
    ∧ ∀ p ∈ (processPositions ⟨1/10, 1/20, 3, 1000, "SL_FIRST"⟩ 45 44 2
        (initState 1000) [⟨50, 40, 5⟩]).2, 2 < p.expiry := by
  have h := C5_horizon_weight_expiry 3 (by norm_num)
    ⟨1/10, 1/20, 3, 1000, "SL_FIRST"⟩ rfl 10 2 (by norm_num) 100 45 44
    (initState 1000) [⟨50, 40, 5⟩]
  exact ⟨by norm_num, h.1, h.2.1, h.2.2⟩

/-- C6: the raw return of a resolved position is tp_frac on TP, -sl_frac on
SL and 0 on FLAT; the effective return is eff_r = w·r − w·TOTAL_COST_FRAC,
so the fixed cost is debited on every resolution — a FLAT close still pays
-w·TOTAL_COST_FRAC — and this effective return is what the linear P&L sum,
the linear equity and the compounded equity are updated with. -/
theorem C6_returns_and_costs (cfg : SimConfig) (s : SimState) (out : Int) :
    rawReturn cfg 1 = cfg.tp_frac
    ∧ rawReturn cfg (-1) = -cfg.sl_frac
    ∧ rawReturn cfg 0 = 0
    ∧ effReturn cfg out
        = weight cfg.horizon_days * rawReturn cfg out
          - weight cfg.horizon_days * TOTAL_COST_FRAC
    ∧ effReturn cfg 0 = -(weight cfg.horizon_days * TOTAL_COST_FRAC)
    ∧ (applyClose cfg s out).pnl_linear_sum
        = s.pnl_linear_sum + effReturn cfg out
    ∧ (applyClose cfg s out).equity_lin
        = max (s.equity_lin + effReturn cfg out) 0
    ∧ (applyClose cfg s out).equity_comp
        = max (s.equity_comp * (1 + effReturn cfg out)) 0 := by
  refine ⟨rfl, rfl, rfl, rfl, ?_, rfl, rfl, rfl⟩
  simp [effReturn, rawReturn]

/-! ### Simulator return contract and the grid loop -/

lemma simulate_none_of_small (cfg : SimConfig) (bars : List Bar)
    (h : bars.length < 3) : simulate_system_for_metrics cfg bars = none := by
  simp only [simulate_system_for_metrics]
  rw [if_pos h]

lemma simulate_exists_some (cfg : SimConfig) (bars : List Bar)
    (h : 3 ≤ bars.length) :
    ∃ r, simulate_system_for_metrics cfg bars = some r := by
  simp only [simulate_system_for_metrics]
  rw [if_neg (by omega)]
  exact ⟨_, rfl⟩

lemma simulate_isSome_iff (cfg : SimConfig) (bars : List Bar) :
    (simulate_system_for_metrics cfg bars).isSome ↔ 3 ≤ bars.length := by
  constructor
  · intro h
    by_contra hn
    rw [simulate_none_of_small cfg bars (by omega)] at h
    exact absurd h (by simp)
  · intro h
    obtain ⟨r, hr⟩ := simulate_exists_some cfg bars h
    rw [hr]
    rfl

lemma gridStep_of_small (bars : List Bar) (se tp sl : ℚ)
    (acc : List SimResult) (hv : ℤ) (h : bars.length < 3) :
    gridStep bars se tp sl acc hv = acc := by
  unfold gridStep
  rw [simulate_none_of_small _ _ h]

lemma gridStep_length (bars : List Bar) (se tp sl : ℚ)
    (acc : List SimResult) (hv : ℤ) (h : 3 ≤ bars.length) :
    (gridStep bars se tp sl acc hv).length = acc.length + 1 := by
  unfold gridStep
  obtain ⟨r, hr⟩ := simulate_exists_some ⟨tp, sl, hv, se, AMBIGUOUS_FILL⟩ bars h
  rw [hr]
  simp

lemma gridH_of_small (bars : List Bar) (se tp sl : ℚ)
    (h : bars.length < 3) :
    ∀ (hsv : List ℤ) (acc : List SimResult),
      gridH bars se tp sl acc hsv = acc := by
  intro hsv
  induction hsv with
  | nil => intro acc; rfl
  | cons hv t ih =>
    intro acc
    unfold gridH
    rw [List.foldl_cons, gridStep_of_small bars se tp sl acc hv h]
    exact ih acc

lemma gridH_length (bars : List Bar) (se tp sl : ℚ) (h : 3 ≤ bars.length) :
    ∀ (hsv : List ℤ) (acc : List SimResult),
      (gridH bars se tp sl acc hsv).length = acc.length + hsv.length := by
  intro hsv
  induction hsv with
  | nil => intro acc; rfl
  | cons hv t ih =>
    intro acc
    unfold gridH
    rw [List.foldl_cons]
    have := ih (gridStep bars se tp sl acc hv)
    unfold gridH at this
    rw [this, gridStep_length bars se tp sl acc hv h]
    simp only [List.length_cons]
    omega

lemma gridSL_of_small (bars : List Bar) (se tp : ℚ) (hsv : List ℤ)
    (h : bars.length < 3) :
    ∀ (sls : List ℚ) (acc : List SimResult),
      gridSL bars se tp hsv acc sls = acc := by
  intro sls
  induction sls with
  | nil => intro acc; rfl
  | cons sl t ih =>
    intro acc
    unfold gridSL
    rw [List.foldl_cons, gridH_of_small bars se tp sl h hsv acc]
    exact ih acc

lemma gridSL_length (bars : List Bar) (se tp : ℚ) (hsv : List ℤ)
    (h : 3 ≤ bars.length) :
    ∀ (sls : List ℚ) (acc : List SimResult),
      (gridSL bars se tp hsv acc sls).length
        = acc.length + sls.length * hsv.length := by
  intro sls
  induction sls with
  | nil => intro acc; simp [gridSL]
  | cons sl t ih =>
    intro acc
    unfold gridSL
    rw [List.foldl_cons]
    have := ih (gridH bars se tp sl acc hsv)
    unfold gridSL at this
    rw [this, gridH_length bars se tp sl h hsv acc]
    simp only [List.length_cons]
    ring

lemma run_grid_search_of_small (bars : List Bar) (tps sls : List ℚ)
    (hsv : List ℤ) (se : ℚ) (h : bars.length < 3) :
    run_grid_search bars tps sls hsv se = [] := by
  unfold run_grid_search
  have key : ∀ (l : List ℚ) (acc : List SimResult),
      l.foldl (fun a tp => gridSL bars se tp hsv a sls) acc = acc := by
    intro l
    induction l with
    | nil => intro acc; rfl
    | cons tp t ih =>
      intro acc
      rw [List.foldl_cons, gridSL_of_small bars se tp hsv h sls acc]
      exact ih acc
  exact key tps []

lemma run_grid_search_length (bars : List Bar) (tps sls : List ℚ)
    (hsv : List ℤ) (se : ℚ) (h : 3 ≤ bars.length) :
    (run_grid_search bars tps sls hsv se).length
      = tps.length * sls.length * hsv.length := by
  unfold run_grid_search
  have key : ∀ (l : List ℚ) (acc : List SimResult),
      (l.foldl (fun a tp => gridSL bars se tp hsv a sls) acc).length
        = acc.length + l.length * (sls.length * hsv.length) := by
    intro l
    induction l with
    | nil => intro acc; simp
    | cons tp t ih =>
      intro acc
      rw [List.foldl_cons, ih (gridSL bars se tp hsv acc sls),
        gridSL_length bars se tp hsv h sls acc]
      simp only [List.length_cons]
      ring
  rw [key tps []]
  simp [mul_assoc]

/-- C7: the simulator returns a result exactly when the series has at least
3 bars and signals InsufficientData (returns none) exactly when it has fewer;
in the grid run a series below 3 bars makes every combination skip without
producing a result row (empty result), while with at least 3 bars the run
continues through all combinations and produces exactly one row per
combination. -/
theorem C7_insufficient_data (cfg : SimConfig) (bars : List Bar)
    (tps sls : List ℚ) (hsv : List ℤ) (se : ℚ) :
    ((simulate_system_for_metrics cfg bars).isSome ↔ 3 ≤ bars.length)
    ∧ (bars.length < 3 → run_grid_search bars tps sls hsv se = [])
    ∧ (3 ≤ bars.length →
        (run_grid_search bars tps sls hsv se).length
          = tps.length * sls.length * hsv.length) :=
  ⟨simulate_isSome_iff cfg bars,
    fun h => run_grid_search_of_small bars tps sls hsv se h,
    fun h => run_grid_search_length bars tps sls hsv se h⟩

/-- C7 witness: a 2-bar series is skipped by every combination of a concrete
grid (empty result), and a 3-bar series produces exactly one row for a
one-combination grid. -/
theorem C7_insufficient_data_witness :
    ([(⟨0, 100, 100, 100, 100⟩ : Bar), ⟨365, 100, 100, 100, 100⟩].length < 3)
    ∧ run_grid_search [⟨0, 100, 100, 100, 100⟩, ⟨365, 100, 100, 100, 100⟩]
        [1/10] [1/20] [5] 100000 = []
    ∧ (3 ≤ ([(⟨0, 100, 100, 100, 100⟩ : Bar), ⟨365, 100, 100, 100, 100⟩,
        ⟨730, 100, 100, 100, 100⟩].length))
    ∧ (run_grid_search [⟨0, 100, 100, 100, 100⟩, ⟨365, 100, 100, 100, 100⟩,
        ⟨730, 100, 100, 100, 100⟩] [1/10] [1/20] [5] 100000).length = 1 := by
  have h2 := C7_insufficient_data ⟨1/10, 1/20, 5, 100000, AMBIGUOUS_FILL⟩
    [⟨0, 100, 100, 100, 100⟩, ⟨365, 100, 100, 100, 100⟩]
    [1/10] [1/20] [5] 100000
  have h3 := C7_insufficient_data ⟨1/10, 1/20, 5, 100000, AMBIGUOUS_FILL⟩
    [⟨0, 100, 100, 100, 100⟩, ⟨365, 100, 100, 100, 100⟩,
     ⟨730, 100, 100, 100, 100⟩]
    [1/10] [1/20] [5] 100000
  refine ⟨by decide, h2.2.1 (by decide), by decide, ?_⟩
  rw [h3.2.2 (by decide)]
  decide

/-- C8 counterexample: for equity_comp = 1/2, start_equity = 1000000 and
years = 1 the compounded return is -0.9999995, which is strictly greater
than -1 with years > 0, yet the code returns the NaN sentinel because its
guard is compounded_return > -0.999999, not > -1 as the claim states. -/
theorem C8_counterexample_boundary :
    (0 < (1 : ℚ))
    ∧ (-1 : ℚ) < (1/2 : ℚ) / 1000000 - 1
    ∧ compounded_cagr_calc (1/2) 1000000 1 = none := by
  refine ⟨by norm_num, by norm_num, ?_⟩
  have h : ¬(0 < (1 : ℚ)
      ∧ (-0.999999 : ℚ) < (1/2 : ℚ) / 1000000 - 1) := by
    rintro ⟨-, h2⟩
    norm_num at h2
  simp only [compounded_cagr_calc]
  rw [if_neg h]

/-- C8 (amended): the reported compounded_cagr equals
(1+compounded_return)^(1/years) - 1 exactly when years > 0 and
compounded_return > -0.999999 (the code's guard, slightly stricter than the
spec's "> -1"), and is the undefined/NaN sentinel otherwise. -/
theorem C8_amended_cagr_guard (equity_comp start_equity years : ℚ) :
    (0 < years →
      (-0.999999 : ℚ) < equity_comp / start_equity - 1 →
      compounded_cagr_calc equity_comp start_equity years
        = some ((1 + ((equity_comp / start_equity - 1 : ℚ) : ℝ))
            ^ ((1 : ℝ) / (years : ℝ)) - 1))
    ∧ (¬(0 < years
        ∧ (-0.999999 : ℚ) < equity_comp / start_equity - 1) →
      compounded_cagr_calc equity_comp start_equity years = none) := by
  constructor
  · intro h1 h2
    simp only [compounded_cagr_calc]
    rw [if_pos ⟨h1, h2⟩]
  · intro h
    simp only [compounded_cagr_calc]
    rw [if_neg h]

/-- C8 witness: at equity_comp = 2000000, start_equity = 1000000 and
years = 4 the guard holds and the formula value is returned. -/
theorem C8_amended_cagr_guard_witness :
    (0 < (4 : ℚ))
    ∧ ((-0.999999 : ℚ) < (2000000 : ℚ) / 1000000 - 1)
    ∧ compounded_cagr_calc 2000000 1000000 4
      = some ((1 + (((2000000 : ℚ) / 1000000 - 1 : ℚ) : ℝ))
          ^ ((1 : ℝ) / ((4 : ℚ) : ℝ)) - 1) :=
  ⟨by norm_num, by norm_num,
    (C8_amended_cagr_guard 2000000 1000000 4).1 (by norm_num) (by norm_num)⟩

/-! ### Grid bounds are never validated -/

lemma linspace_length (lo hi : ℚ) (steps : ℕ) :
    (linspace lo hi steps).length = steps := by
  unfold linspace
  split
  · rw [List.length_map, List.length_range]
  · rw [List.length_map, List.length_range]

lemma arange_nil (lo hi : ℤ) (h : hi ≤ lo) : arange lo hi = [] := by
  unfold arange
  have h0 : (hi - lo).toNat = 0 := by omega
  rw [h0]
  rfl

lemma gridSL_nil_hsv (bars : List Bar) (se tp : ℚ) (sls : List ℚ)
    (acc : List SimResult) : gridSL bars se tp [] acc sls = acc := by
  unfold gridSL
  induction sls generalizing acc with
  | nil => rfl
  | cons sl t ih =>
    rw [List.foldl_cons]
    exact ih acc

lemma run_grid_search_nil_hsv (bars : List Bar) (tps sls : List ℚ)
    (se : ℚ) : run_grid_search bars tps sls [] se = [] := by
  unfold run_grid_search
  have key : ∀ (l : List ℚ) (acc : List SimResult),
      l.foldl (fun a tp => gridSL bars se tp [] a sls) acc = acc := by
    intro l
    induction l with
    | nil => intro acc; rfl
    | cons tp t ih =>
      intro acc
      rw [List.foldl_cons, gridSL_nil_hsv bars se tp sls acc]
      exact ih acc
  exact key tps []

/-- C9 counterexample: with invalid grid bounds — tp maximum 0.005 strictly
below tp minimum 0.4 — and a 3-bar series, the grid run does not fail before
starting: it executes the per-combination simulations anyway and produces
2·2·1 = 4 result rows, contradicting the claim that no per-combo simulation
is executed under such a configuration. -/
theorem C9_counterexample_no_validation :
    ((0.005 : ℚ) < 0.4)
    ∧ (run_grid_search_cfg
        [⟨0, 100, 100, 100, 100⟩, ⟨365, 100, 100, 100, 100⟩,
         ⟨730, 100, 100, 100, 100⟩]
        0.4 0.005 2 0.01 0.02 2 1 1 100000).length = 4 := by
  constructor
  · norm_num
  · decide

/-- C9 (amended): the program performs no configuration validation and
raises no ConfigurationError: with max < min the linspace enumerator still
produces the requested number of (descending) values and the grid runs over
them, while a non-positive horizon range (hmax < hmin) merely yields an
empty horizon list, so the grid run completes normally with zero result
rows rather than failing before it starts. -/
theorem C9_amended_no_config_check (tpmin tpmax slmin slmax se : ℚ)
    (tpsteps slsteps : ℕ) (hmin hmax : ℤ) (bars : List Bar) :
    (linspace tpmin tpmax tpsteps).length = tpsteps
    ∧ (hmax < hmin → arange hmin (hmax + 1) = [])
    ∧ (hmax < hmin →
        run_grid_search_cfg bars tpmin tpmax tpsteps slmin slmax slsteps
          hmin hmax se = []) := by
  refine ⟨linspace_length tpmin tpmax tpsteps, ?_, ?_⟩
  · intro h
    exact arange_nil hmin (hmax + 1) (by omega)
  · intro h
    unfold run_grid_search_cfg
    rw [arange_nil hmin (hmax + 1) (by omega)]
    exact run_grid_search_nil_hsv bars _ _ se

/-- C9 witness: a concrete inverted horizon range (hmin 1 > hmax 0) yields
an empty horizon list and an empty grid result. -/
theorem C9_amended_no_config_check_witness :
    (linspace (1/200 : ℚ) (2/5) 25).length = 25
    ∧ ((0 : ℤ) < 1)
    ∧ arange 1 (0 + 1) = []
    ∧ run_grid_search_cfg [] (1/200 : ℚ) (2/5) 25 (1/200) (1/5) 25 1 0
        100000 = [] := by
  have h := C9_amended_no_config_check (1/200) (2/5) (1/200) (1/5) 100000
    25 25 1 0 []
  exact ⟨h.1, by decide, h.2.1 (by decide), h.2.2 (by decide)⟩

/-! ### Horizon clamping congruence -/

lemma effReturn_congr (c₁ c₂ : SimConfig) (htp : c₁.tp_frac = c₂.tp_frac)
    (hsl : c₁.sl_frac = c₂.sl_frac)
    (hh : hClamp c₁.horizon_days = hClamp c₂.horizon_days) (out : Int) :
    effReturn c₁ out = effReturn c₂ out := by
  unfold effReturn weight rawReturn
  rw [hh, htp, hsl]

lemma applyClose_congr (c₁ c₂ : SimConfig) (htp : c₁.tp_frac = c₂.tp_frac)
    (hsl : c₁.sl_frac = c₂.sl_frac)
    (hh : hClamp c₁.horizon_days = hClamp c₂.horizon_days)
    (s : SimState) (out : Int) :
    applyClose c₁ s out = applyClose c₂ s out := by
  unfold applyClose
  rw [effReturn_congr c₁ c₂ htp hsl hh out]

lemma mkPosition_congr (c₁ c₂ : SimConfig) (htp : c₁.tp_frac = c₂.tp_frac)
    (hsl : c₁.sl_frac = c₂.sl_frac)
    (hh : hClamp c₁.horizon_days = hClamp c₂.horizon_days)
    (n i : ℕ) (entry : ℚ) :
    mkPosition c₁ n i entry = mkPosition c₂ n i entry := by
  unfold mkPosition
  rw [htp, hsl, hh]

lemma processPositions_congr (c₁ c₂ : SimConfig)
    (htp : c₁.tp_frac = c₂.tp_frac) (hsl : c₁.sl_frac = c₂.sl_frac)
    (hh : hClamp c₁.horizon_days = hClamp c₂.horizon_days)
    (hpol : c₁.ambiguous_fill = c₂.ambiguous_fill) (hi lo : ℚ) (i : ℕ) :
    ∀ (ps : List Pos) (s : SimState),
      processPositions c₁ hi lo i s ps = processPositions c₂ hi lo i s ps := by
  intro ps
  induction ps with
  | nil => intro s; rfl
  | cons p rest ih =>
    intro s
    simp only [processPositions, hpol,
      applyClose_congr c₁ c₂ htp hsl hh, ih]

lemma simLoop_congr (c₁ c₂ : SimConfig) (htp : c₁.tp_frac = c₂.tp_frac)
    (hsl : c₁.sl_frac = c₂.sl_frac)
    (hh : hClamp c₁.horizon_days = hClamp c₂.horizon_days)
    (hse : c₁.start_equity = c₂.start_equity)
    (hpol : c₁.ambiguous_fill = c₂.ambiguous_fill) (bars : List Bar) :
    simLoop c₁ bars = simLoop c₂ bars := by
  unfold simLoop
  have hf : simBar c₁ bars.length = simBar c₂ bars.length := by
    funext sp ib
    rw [simBar_eq, simBar_eq, mkPosition_congr c₁ c₂ htp hsl hh,
      processPositions_congr c₁ c₂ htp hsl hh hpol]
  rw [hf, hse]

lemma simulate_congr (c₁ c₂ : SimConfig) (htp : c₁.tp_frac = c₂.tp_frac)
    (hsl : c₁.sl_frac = c₂.sl_frac)
    (hh : hClamp c₁.horizon_days = hClamp c₂.horizon_days)
    (hse : c₁.start_equity = c₂.start_equity)
    (hpol : c₁.ambiguous_fill = c₂.ambiguous_fill) (bars : List Bar) :
    simulate_system_for_metrics c₁ bars
      = simulate_system_for_metrics c₂ bars := by
  simp only [simulate_system_for_metrics]
  rw [simLoop_congr c₁ c₂ htp hsl hh hse hpol bars, hh, htp, hsl, hse]

/-- C10: the simulator clamps horizon_days to h = max(int(horizon_days), 1)
before any use, so calling it with a zero or negative horizon returns the
same SimulationResult as horizon_days = 1, and the reported horizon_days
field is the clamped value 1, instead of raising an error. -/
theorem C10_horizon_clamped (z : ℤ) (hz : z ≤ 0) (tp sl se : ℚ)
    (pol : String) (bars : List Bar) :
    hClamp z = 1
    ∧ simulate_system_for_metrics ⟨tp, sl, z, se, pol⟩ bars
        = simulate_system_for_metrics ⟨tp, sl, 1, se, pol⟩ bars
    ∧ (3 ≤ bars.length →
        (simulate_system_for_metrics ⟨tp, sl, z, se, pol⟩ bars).map
          SimResult.horizon_days = some 1) := by
  have h1 : hClamp z = 1 := by
    unfold hClamp
    omega
  have hh : hClamp z = hClamp 1 := by
    rw [h1]
    rfl
  refine ⟨h1, simulate_congr ⟨tp, sl, z, se, pol⟩ ⟨tp, sl, 1, se, pol⟩
    rfl rfl hh rfl rfl bars, ?_⟩
  intro h3
  simp only [simulate_system_for_metrics]
  rw [if_neg (by omega)]
  simp [h1]

/-- C10 witness: a concrete run with horizon_days = -2 equals the run with
horizon_days = 1 on a 3-bar series, and reports the clamped horizon 1. -/
theorem C10_horizon_clamped_witness :
    ((-2 : ℤ) ≤ 0)
    ∧ hClamp (-2) = 1
    ∧ simulate_system_for_metrics ⟨1/10, 1/20, -2, 1000, "SL_FIRST"⟩
        [⟨0, 100, 100, 100, 100⟩, ⟨365, 100, 100, 100, 100⟩,
         ⟨730, 100, 100, 100, 100⟩]
      = simulate_system_for_metrics ⟨1/10, 1/20, 1, 1000, "SL_FIRST"⟩
        [⟨0, 100, 100, 100, 100⟩, ⟨365, 100, 100, 100, 100⟩,
         ⟨730, 100, 100, 100, 100⟩]
    ∧ (simulate_system_for_metrics ⟨1/10, 1/20, -2, 1000, "SL_FIRST"⟩
        [⟨0, 100, 100, 100, 100⟩, ⟨365, 100, 100, 100, 100⟩,
         ⟨730, 100, 100, 100, 100⟩]).map SimResult.horizon_days = some 1 := by
  have h := C10_horizon_clamped (-2) (by decide) (1/10) (1/20) 1000
    "SL_FIRST"
    [⟨0, 100, 100, 100, 100⟩, ⟨365, 100, 100, 100, 100⟩,
     ⟨730, 100, 100, 100, 100⟩]
  exact ⟨by decide, h.1, h.2.1, h.2.2 (by decide)⟩

end Convolve
